import Mathlib

/-!
Verification of the statistics / time-filtered aggregation core of the
poker-tracker repository.

The embedded code comes from:
* `src/frontend/src/components/SessionTable.svelte` (`calculateProfit`),
* `src/frontend/src/components/BankrollChart.svelte`
  (`filterSessionsByTimeRange`, `calculateChartData`),
* `src/frontend/src/pages/Dashboard.svelte` and
  `src/frontend/src/pages/Charts.svelte` (the reactive stat-card
  aggregates `totalProfit`, `totalSessions`, `totalHours` and the
  hourly-rate ternary).

Two arithmetic readings of the monetary code are used side by side:

* an exact-decimal reading (`ℚ`), matching the specification's stated
  decimal semantics of the DECIMAL(10,2) columns; and
* a faithful IEEE-754 binary64 reading (`FloatVal`, below), modelling
  what the JavaScript in the sources actually does with `parseFloat`
  and `+`/`-` on `number`s (round-to-nearest, ties-to-even).

Dates: `session_date` is a calendar date string which the sources turn
into a JS `Date` (a millisecond timestamp) for comparison and sorting;
the embedding carries that timestamp directly.  The reference instant
`now` (a JS `Date` produced by `new Date()` inside
`filterSessionsByTimeRange`) is modelled by its civil components plus
the time of day, and the `setDate`/`setMonth`/`setFullYear` mutations
are modelled through the standard civil-from-days correspondence
(proleptic Gregorian calendar, UTC; epoch 1970-01-01).
-/

namespace PokerTracker

/-! ### Calendar / `Date` model -/

/-- Milliseconds in a day, the unit conversion used by JS `Date` timestamps. -/
def dayMs : ℤ := 86400000

/-- Day number of the civil date `y-m-d` relative to 1970-01-01 (proleptic
Gregorian).  `m` is 1-based.  The formula is affine in `d`, so out-of-range
day values roll over into adjacent months exactly as JS `Date` normalises
them (e.g. February 31 becomes March 3).  Lean's `Int` division is floor
division for the positive divisors used here, which is what the civil
correspondence requires, including for negative years. -/
def daysFromCivil (y m d : ℤ) : ℤ :=
  let yAdj := if m ≤ 2 then y - 1 else y
  let era := yAdj / 400
  let yoe := yAdj - era * 400
  let mp := if 2 < m then m - 3 else m + 9
  let doy := (153 * mp + 2) / 5 + d - 1
  let doe := yoe * 365 + yoe / 4 - yoe / 100 + doy
  era * 146097 + doe - 719468

/-- The reference instant read by `new Date()` in
`filterSessionsByTimeRange` (BankrollChart.svelte): its civil components
as exposed by `getFullYear()` (`year`), `getMonth()` (`monthIdx`,
0-based), `getDate()` (`day`, 1-based) and the time of day in
milliseconds. -/
structure JSDate where
  year : ℤ
  monthIdx : ℤ
  day : ℤ
  msOfDay : ℤ
deriving DecidableEq, Repr

/-- Timestamp (ms since epoch) of a `JSDate`. -/
def nowMs (t : JSDate) : ℤ :=
  daysFromCivil t.year (t.monthIdx + 1) t.day * dayMs + t.msOfDay

/-- Timestamp of `cutoffDate` after `cutoffDate.setDate(now.getDate() - 7)`
(the `week` case): the day of month is replaced by `day - 7` and rolled
over, which the affine-in-`d` day formula performs. -/
def cutoffWeekMs (t : JSDate) : ℤ :=
  daysFromCivil t.year (t.monthIdx + 1) (t.day - 7) * dayMs + t.msOfDay

/-- Year component after `setMonth(monthIdx - k)`: JS normalises a negative
month index into the previous year. -/
def subMonthsYear (t : JSDate) (k : ℤ) : ℤ :=
  if t.monthIdx - k < 0 then t.year - 1 else t.year

/-- Month index (0-based) after `setMonth(monthIdx - k)`, normalised into
`0..11`; valid for `k ≤ 12` and `monthIdx` in `0..11`. -/
def subMonthsIdx (t : JSDate) (k : ℤ) : ℤ :=
  if t.monthIdx - k < 0 then t.monthIdx - k + 12 else t.monthIdx - k

/-- Timestamp of `cutoffDate` after `cutoffDate.setMonth(now.getMonth() - 1)`
(the `month` case).  The day of month is kept; if it exceeds the target
month's length, JS rolls it over, which the day formula performs. -/
def cutoffMonthMs (t : JSDate) : ℤ :=
  daysFromCivil (subMonthsYear t 1) (subMonthsIdx t 1 + 1) t.day * dayMs + t.msOfDay

/-- Timestamp of `cutoffDate` after `cutoffDate.setMonth(now.getMonth() - 3)`
(the `quarter` case). -/
def cutoffQuarterMs (t : JSDate) : ℤ :=
  daysFromCivil (subMonthsYear t 3) (subMonthsIdx t 3 + 1) t.day * dayMs + t.msOfDay

/-- Timestamp of `cutoffDate` after
`cutoffDate.setFullYear(now.getFullYear() - 1)` (the `year` case). -/
def cutoffYearMs (t : JSDate) : ℤ :=
  daysFromCivil (t.year - 1) (t.monthIdx + 1) t.day * dayMs + t.msOfDay

/-! ### Session model

Mirrors the `PokerSession` interface of `src/frontend/src/lib/api.ts`.
`session_date` carries the millisecond timestamp that
`new Date(s.session_date)` yields for the stored calendar-date string;
the monetary string fields carry the exact decimal value of the string
(the DECIMAL(10,2) column); `profit` is the optional backend-computed
field (`profit?: number`).  Identifier, notes and audit-timestamp fields
are never read by the aggregation/filter/chart code and are omitted. -/

structure PokerSession where
  session_date : ℤ
  duration_minutes : ℕ
  buy_in_amount : ℚ
  rebuy_amount : ℚ
  cash_out_amount : ℚ
  profit : Option ℚ
deriving DecidableEq, Repr

/-- SessionTable.svelte `calculateProfit` (and the identical per-session
profit expression inside `calculateChartData`):
`cashOut - (buyIn + rebuy)`, read in exact decimal arithmetic. -/
def calculateProfit (s : PokerSession) : ℚ :=
  s.cash_out_amount - (s.buy_in_amount + s.rebuy_amount)

/-- Dashboard.svelte / Charts.svelte:
`sessions.reduce((sum, s) => sum + (s.profit || 0), 0)`. -/
def totalProfit (sessions : List PokerSession) : ℚ :=
  sessions.foldl (fun sum s => sum + s.profit.getD 0) 0

/-- Dashboard.svelte / Charts.svelte: `sessions.length`. -/
def totalSessions (sessions : List PokerSession) : ℕ :=
  sessions.length

/-- Dashboard.svelte / Charts.svelte:
`sessions.reduce((sum, s) => sum + s.duration_minutes / 60, 0)`. -/
def totalHours (sessions : List PokerSession) : ℚ :=
  sessions.foldl (fun sum s => sum + (s.duration_minutes : ℚ) / 60) 0

/-- Charts.svelte hourly-rate stat card:
`totalHours > 0 ? (totalProfit / totalHours) : 0` (the displayed string
applies `toFixed(2)` to this value; formatting is out of scope). -/
def hourlyRate (sessions : List PokerSession) : ℚ :=
  if 0 < totalHours sessions then totalProfit sessions / totalHours sessions else 0

/-- BankrollChart.svelte `filterSessionsByTimeRange`.  The source returns
`sessions` for `"all"`; otherwise it starts from `cutoffDate = new Date()`
(equal to `now`), mutates it in a `switch` with cases `week`, `month`,
`quarter`, `year` and no `default` (an unrecognised selector leaves the
cutoff at `now`), then keeps the sessions with
`new Date(s.session_date) >= cutoffDate`. -/
def filterSessionsByTimeRange (sessions : List PokerSession) (range : String)
    (now : JSDate) : List PokerSession :=
  if range = "all" then sessions
  else
    let cutoff :=
      if range = "week" then cutoffWeekMs now
      else if range = "month" then cutoffMonthMs now
      else if range = "quarter" then cutoffQuarterMs now
      else if range = "year" then cutoffYearMs now
      else nowMs now
    sessions.filter fun s => decide (cutoff ≤ s.session_date)

/-- Comparator of the chart's sort,
`(a, b) => new Date(a.session_date).getTime() - new Date(b.session_date).getTime()`:
`a` sorts no later than `b` iff its timestamp is `≤`.  JS `Array.sort`
is stable, which `List.mergeSort` matches. -/
def sessionLe (a b : PokerSession) : Bool :=
  decide (a.session_date ≤ b.session_date)

/-- The date-sorted copy `[...filteredSessions].sort(...)` taken inside
`calculateChartData`. -/
def sortedSessions (sessions : List PokerSession) : List PokerSession :=
  List.mergeSort sessions sessionLe

/-- The `sorted.forEach` loop of `calculateChartData`: starting from
`runningTotal = 0` it pushes, per session, the date label (modelled by
the timestamp) and the running total after adding that session's
profit. -/
def runningPoints (acc : ℚ) : List PokerSession → List (ℤ × ℚ)
  | [] => []
  | s :: rest =>
    let acc2 := acc + calculateProfit s
    (s.session_date, acc2) :: runningPoints acc2 rest

/-- BankrollChart.svelte `calculateChartData`, as the list of
`(label, data)` point pairs: empty input short-circuits to the empty
series, otherwise one point per session of the date-sorted input. -/
def calculateChartData (sessions : List PokerSession) : List (ℤ × ℚ) :=
  if sessions.isEmpty then []
  else runningPoints 0 (sortedSessions sessions)

/-! ### IEEE-754 binary64 model

The JavaScript sources do their monetary arithmetic on `number`s:
`parseFloat` converts the two-decimal DECIMAL strings to the nearest
binary64 value, and `+`/`-` round the exact result to the nearest
binary64 value (ties to even).  The model below represents a binary64
value exactly as a dyadic rational `m * 2^e` and implements
round-to-nearest, ties-to-even on 53-bit significands.  Exponent range
is unbounded (no overflow/underflow/subnormals), which is faithful for
the magnitudes DECIMAL(10,2) admits. -/

/-- Powers of two in `ℤ`, by structural recursion so the kernel can
evaluate them. -/
def pow2z : ℕ → ℤ
  | 0 => 1
  | n + 1 => 2 * pow2z n

/-- Bit length of a natural number, with explicit fuel (4096 bits covers
every quantity that arises here). -/
def bitlenAux : ℕ → ℕ → ℕ
  | 0, _ => 0
  | fuel + 1, n => if n = 0 then 0 else bitlenAux fuel (n / 2) + 1

/-- Bit length of a natural number. -/
def bitlen (n : ℕ) : ℕ := bitlenAux 4096 n

/-- Round `num / den` (`den > 0`) to the nearest integer, ties to even.
Floor division puts the remainder in `[0, den)`, so the rule also treats
negative numerators correctly. -/
def rneDiv (num den : ℤ) : ℤ :=
  let q := num / den
  let r := num % den
  if 2 * r < den then q
  else if den < 2 * r then q + 1
  else if q % 2 = 0 then q else q + 1

/-- An exact binary64 value `m * 2^e`. -/
structure FloatVal where
  m : ℤ
  e : ℤ
deriving DecidableEq, Repr

/-- Round a dyadic value to a 53-bit significand (round-to-nearest,
ties-to-even): the binary64 rounding step. -/
def roundM53 (m e : ℤ) : FloatVal :=
  let len := bitlen m.natAbs
  if len ≤ 53 then ⟨m, e⟩
  else
    let sh := len - 53
    ⟨rneDiv m (pow2z sh), e + sh⟩

/-- Scale search for `fpOfCents`: the least `s` with `cur * 2^s` at or
above the fixed bound, by doubling with fuel. -/
def findScaleAux (bound : ℤ) : ℕ → ℤ → ℕ → ℕ
  | 0, _, s => s
  | fuel + 1, cur, s => if bound ≤ cur then s else findScaleAux bound fuel (2 * cur) (s + 1)

/-- The binary64 value `parseFloat` produces for a two-decimal monetary
string worth `c` cents (`c / 100`): the significand is the
round-to-nearest-even 53-bit approximation of `|c| / 100` at the scale
that puts it in `[2^52, 2^53)`.  Valid for `|c| < 2^53` cents, far above
anything a DECIMAL(10,2) column holds. -/
def fpOfCents (c : ℤ) : FloatVal :=
  if c = 0 then ⟨0, 0⟩
  else
    let a : ℤ := |c|
    let s := findScaleAux (100 * pow2z 52) 200 a 0
    let m := rneDiv (a * pow2z s) 100
    ⟨(if c < 0 then -m else m), -(s : ℤ)⟩

/-- Exact rational value of a modelled binary64. -/
def FloatVal.toRat (v : FloatVal) : ℚ :=
  if 0 ≤ v.e then (v.m : ℚ) * ((pow2z v.e.toNat : ℤ) : ℚ)
  else (v.m : ℚ) / ((pow2z (-v.e).toNat : ℤ) : ℚ)

/-- Binary64 addition: exact sum of the aligned significands, then the
binary64 rounding step. -/
def fadd (x y : FloatVal) : FloatVal :=
  let emin := min x.e y.e
  let mx := x.m * pow2z (x.e - emin).toNat
  let my := y.m * pow2z (y.e - emin).toNat
  roundM53 (mx + my) emin

/-- Binary64 negation (exact). -/
def fneg (x : FloatVal) : FloatVal := ⟨-x.m, x.e⟩

/-- Binary64 subtraction. -/
def fsub (x y : FloatVal) : FloatVal := fadd x (fneg y)

/-- SessionTable.svelte `calculateProfit` (and the chart's per-session
profit expression), in the arithmetic the browser actually performs:
`parseFloat` each two-decimal amount (given in cents), then
`cashOut - (buyIn + rebuy)` in binary64. -/
def calculateProfitFP (buyC rebuyC cashC : ℤ) : FloatVal :=
  fsub (fpOfCents cashC) (fadd (fpOfCents buyC) (fpOfCents rebuyC))

/-- Dashboard.svelte / Charts.svelte
`sessions.reduce((sum, s) => sum + (s.profit || 0), 0)` in binary64,
over the per-session profit values (each a two-decimal amount in cents,
as the backend serialises them). -/
def totalProfitFP (profitsC : List ℤ) : FloatVal :=
  profitsC.foldl (fun acc c => fadd acc (fpOfCents c)) ⟨0, 0⟩

/-- A session as the binary64 chart/table pipeline sees it: the
`session_date` timestamp and the three monetary amounts in cents. -/
structure FSession where
  ts : ℤ
  buyC : ℤ
  rebuyC : ℤ
  cashC : ℤ
deriving DecidableEq, Repr

/-- The chart comparator on `FSession`s. -/
def fsessionLe (a b : FSession) : Bool := decide (a.ts ≤ b.ts)

/-- Per-session binary64 profit of an `FSession`. -/
def fsessionProfit (s : FSession) : FloatVal :=
  calculateProfitFP s.buyC s.rebuyC s.cashC

/-- Binary64 sum of the per-row table profits, in row (input) order. -/
def tableProfitSumFP (l : List FSession) : FloatVal :=
  l.foldl (fun acc s => fadd acc (fsessionProfit s)) ⟨0, 0⟩

/-- The final running total of the chart in binary64: the same fold, but
over the date-sorted sessions, exactly as `calculateChartData`
accumulates `runningTotal`. -/
def chartFinalTotalFP (l : List FSession) : FloatVal :=
  (List.mergeSort l fsessionLe).foldl (fun acc s => fadd acc (fsessionProfit s)) ⟨0, 0⟩

example : fpOfCents 10 = ⟨7205759403792794, -56⟩ := by decide
example : fpOfCents 10010 = ⟨7043911292184166, -46⟩ := by decide
example : fpOfCents 15020 = ⟨5284692687742566, -45⟩ := by decide
example : calculateProfitFP 10010 0 15020 = ⟨3525474083300966, -46⟩ := by decide
example : totalProfitFP [10, 20, 30] = ⟨5404319552844596, -53⟩ := by decide

/-! ### Helper lemmas -/

/-- Unfold `pow2z` to the ambient power so `norm_num` can evaluate it. -/
theorem pow2z_eq (n : ℕ) : pow2z n = 2 ^ n := by
  induction n with
  | zero => rfl
  | succ k ih => rw [pow2z, ih, pow_succ]; ring

/-- A `reduce`-style fold of `a + f s` accumulates the sum of `f` over the
list. -/
theorem foldl_add_map (f : PokerSession → ℚ) (l : List PokerSession) (a : ℚ) :
    l.foldl (fun sum s => sum + f s) a = a + (l.map f).sum := by
  induction l generalizing a with
  | nil => simp
  | cons x xs ih => simp [ih, add_assoc]

theorem totalProfit_eq_sum (l : List PokerSession) :
    totalProfit l = (l.map fun s => s.profit.getD 0).sum := by
  simpa using foldl_add_map (fun s => s.profit.getD 0) l 0

theorem totalHours_eq_sum (l : List PokerSession) :
    totalHours l = (l.map fun s => (s.duration_minutes : ℚ) / 60).sum := by
  simpa using foldl_add_map (fun s => (s.duration_minutes : ℚ) / 60) l 0

theorem totalHours_nonneg (l : List PokerSession) : 0 ≤ totalHours l := by
  rw [totalHours_eq_sum]
  apply List.sum_nonneg
  intro x hx
  simp only [List.mem_map] at hx
  obtain ⟨s, -, rfl⟩ := hx
  positivity

theorem sessionLe_trans (a b c : PokerSession)
    (hab : sessionLe a b) (hbc : sessionLe b c) : sessionLe a c := by
  simp only [sessionLe, decide_eq_true_eq] at *
  omega

theorem sessionLe_total (a b : PokerSession) : sessionLe a b || sessionLe b a := by
  simp only [sessionLe]
  rcases le_total a.session_date b.session_date with h | h <;> simp [h]

/-- The chart sort keeps one session per input session. -/
theorem sortedSessions_length (l : List PokerSession) :
    (sortedSessions l).length = l.length :=
  List.length_mergeSort l

/-- The chart sort permutes the input sessions. -/
theorem sortedSessions_perm (l : List PokerSession) :
    List.Perm (sortedSessions l) l :=
  List.mergeSort_perm l sessionLe

/-- Stability of the chart sort: the sessions of any one date appear in the
sorted list exactly as they appear in the input. -/
theorem sortedSessions_filter_date (l : List PokerSession) (t : ℤ) :
    (sortedSessions l).filter (fun s => decide (s.session_date = t)) =
      l.filter (fun s => decide (s.session_date = t)) := by
  set p : PokerSession → Bool := fun s => decide (s.session_date = t) with hp
  have hmem : ∀ a ∈ l.filter p, a.session_date = t := by
    intro a ha
    have := List.of_mem_filter ha
    simpa [hp] using this
  have hpair : (l.filter p).Pairwise (fun a b => sessionLe a b) := by
    apply List.pairwise_of_forall_mem_list
    intro a ha b hb
    simp [sessionLe, hmem a ha, hmem b hb]
  have hsub : List.Sublist (l.filter p) (sortedSessions l) :=
    List.sublist_mergeSort sessionLe_trans sessionLe_total hpair (List.filter_sublist l)
  have hsub2 : List.Sublist (l.filter p) ((sortedSessions l).filter p) := by
    have h1 := hsub.filter p
    rwa [List.filter_filter, show (fun a => p a && p a) = p by funext a; cases p a <;> simp] at h1
  have hlen : ((sortedSessions l).filter p).length = (l.filter p).length :=
    ((sortedSessions_perm l).filter p).length_eq
  exact (hsub2.eq_of_length hlen.symm).symm

/-- The `forEach` loop emits one point per session. -/
theorem runningPoints_length (acc : ℚ) (l : List PokerSession) :
    (runningPoints acc l).length = l.length := by
  induction l generalizing acc with
  | nil => rfl
  | cons s rest ih => simp [runningPoints, ih]

/-- The labels of the emitted points are the session dates, in order. -/
theorem runningPoints_fst (acc : ℚ) (l : List PokerSession) :
    (runningPoints acc l).map Prod.fst = l.map (fun s => s.session_date) := by
  induction l generalizing acc with
  | nil => rfl
  | cons s rest ih => simp [runningPoints, ih]

/-- The last emitted running total is the accumulator plus the sum of the
remaining profits. -/
theorem runningPoints_last (acc : ℚ) (l : List PokerSession) (h : l ≠ []) :
    ((runningPoints acc l).map Prod.snd).getLast? =
      some (acc + (l.map calculateProfit).sum) := by
  induction l generalizing acc with
  | nil => exact absurd rfl h
  | cons s rest ih =>
    cases rest with
    | nil => simp [runningPoints]
    | cons s2 rest2 =>
      have step := ih (acc + calculateProfit s) (by simp)
      simp only [runningPoints, List.map_cons, List.getLast?_cons_cons] at *
      rw [step]
      congr 1
      simp only [List.sum_cons]
      ring

/-- The chart series has one point per input session. -/
theorem calculateChartData_length (l : List PokerSession) :
    (calculateChartData l).length = l.length := by
  by_cases h : l.isEmpty
  · have : l = [] := List.isEmpty_iff.mp h
    subst this
    rfl
  · simp [calculateChartData, h, runningPoints_length, sortedSessions_length]

/-- Shifting the day field shifts the day count by the same amount (the
civil day formula is affine in the day). -/
theorem daysFromCivil_day_shift (y m d k : ℤ) :
    daysFromCivil y m (d - k) = daysFromCivil y m d - k := by
  simp only [daysFromCivil]
  split_ifs <;> ring

/-- The `week` cutoff is exactly seven days before `now`. -/
theorem cutoffWeekMs_eq (t : JSDate) : cutoffWeekMs t = nowMs t - 7 * dayMs := by
  simp only [cutoffWeekMs, nowMs, daysFromCivil_day_shift]
  ring

/-- The `month` cutoff lies at or before the `week` cutoff, for any civil
reference instant. -/
theorem cutoffMonth_le_cutoffWeek (t : JSDate)
    (h1 : 0 ≤ t.monthIdx) (h2 : t.monthIdx ≤ 11) :
    cutoffMonthMs t ≤ cutoffWeekMs t := by
  obtain ⟨y, m, d, ms⟩ := t
  simp only [cutoffMonthMs, cutoffWeekMs, subMonthsYear, subMonthsIdx, dayMs] at *
  interval_cases m <;> simp [daysFromCivil] <;> omega

/-- The `quarter` cutoff lies at or before the `month` cutoff. -/
theorem cutoffQuarter_le_cutoffMonth (t : JSDate)
    (h1 : 0 ≤ t.monthIdx) (h2 : t.monthIdx ≤ 11) :
    cutoffQuarterMs t ≤ cutoffMonthMs t := by
  obtain ⟨y, m, d, ms⟩ := t
  simp only [cutoffQuarterMs, cutoffMonthMs, subMonthsYear, subMonthsIdx, dayMs] at *
  interval_cases m <;> simp [daysFromCivil] <;> omega

/-- The `year` cutoff lies at or before the `quarter` cutoff. -/
theorem cutoffYear_le_cutoffQuarter (t : JSDate)
    (h1 : 0 ≤ t.monthIdx) (h2 : t.monthIdx ≤ 11) :
    cutoffYearMs t ≤ cutoffQuarterMs t := by
  obtain ⟨y, m, d, ms⟩ := t
  simp only [cutoffYearMs, cutoffQuarterMs, subMonthsYear, subMonthsIdx, dayMs] at *
  interval_cases m <;> simp [daysFromCivil] <;> omega

/-- Shape of the filter at each recognised selector. -/
theorem filterSessions_week (l : List PokerSession) (now : JSDate) :
    filterSessionsByTimeRange l "week" now =
      l.filter fun s => decide (cutoffWeekMs now ≤ s.session_date) := by
  simp [filterSessionsByTimeRange]

theorem filterSessions_month (l : List PokerSession) (now : JSDate) :
    filterSessionsByTimeRange l "month" now =
      l.filter fun s => decide (cutoffMonthMs now ≤ s.session_date) := by
  simp [filterSessionsByTimeRange]

theorem filterSessions_quarter (l : List PokerSession) (now : JSDate) :
    filterSessionsByTimeRange l "quarter" now =
      l.filter fun s => decide (cutoffQuarterMs now ≤ s.session_date) := by
  simp [filterSessionsByTimeRange]

theorem filterSessions_year (l : List PokerSession) (now : JSDate) :
    filterSessionsByTimeRange l "year" now =
      l.filter fun s => decide (cutoffYearMs now ≤ s.session_date) := by
  simp [filterSessionsByTimeRange]

theorem filterSessions_all (l : List PokerSession) (now : JSDate) :
    filterSessionsByTimeRange l "all" now = l := by
  simp [filterSessionsByTimeRange]

/-- A later cutoff lets through at most as many sessions. -/
theorem length_filter_cutoff_mono (l : List PokerSession) (c1 c2 : ℤ) (h : c2 ≤ c1) :
    (l.filter fun s => decide (c1 ≤ s.session_date)).length ≤
      (l.filter fun s => decide (c2 ≤ s.session_date)).length := by
  have e1 := List.countP_eq_length_filter (fun s => decide (c1 ≤ s.session_date)) l
  have e2 := List.countP_eq_length_filter (fun s => decide (c2 ≤ s.session_date)) l
  rw [← e1, ← e2]
  apply List.countP_mono_left
  intro a _ ha
  simp only [decide_eq_true_eq] at *
  omega

/-! ### Claim theorems -/

/-- C1: the claim (and spec P1) says the profit computed for display equals
`cash_out - (buy_in + rebuy)` exactly for two-decimal inputs, e.g.
buy_in 100.10, rebuy 0, cash_out 150.20 giving exactly 50.10.  The sources
compute it with `parseFloat` and binary64 arithmetic, which at that very
input yields 1762737041650483/2^45 = 50.099999999999994…, not 50.10.  This
theorem evaluates the code's arithmetic at the failing input. -/
theorem C1_profit_binary64_artifact :
    (calculateProfitFP 10010 0 15020).toRat = 1762737041650483 / 35184372088832 ∧
      (calculateProfitFP 10010 0 15020).toRat ≠ 501 / 10 := by
  have h : calculateProfitFP 10010 0 15020 = ⟨3525474083300966, -46⟩ := by decide
  rw [h]
  constructor <;> norm_num [FloatVal.toRat, pow2z_eq, show ((46:ℤ)).toNat = 46 from rfl]

/-- C2: reading the monetary code in exact arithmetic, the hourly rate is
`totalProfit / totalHours` whenever the hours are positive and exactly 0
when the hours are zero (the only other case, as hours are a sum of
non-negative terms), and the empty collection aggregates to
profit 0, sessions 0, hours 0, rate 0 with no division error.  (The
claim's "iff" is the branch structure of the ternary; it is stated here
as the two branches because `ℚ` makes `x / 0 = 0` rather than an error
value, which would let the degenerate case satisfy the quotient equation
vacuously.) -/
theorem C2_hourly_rate_zero_guard (l : List PokerSession) :
    ((0 < totalHours l ∧ hourlyRate l = totalProfit l / totalHours l) ∨
      (totalHours l = 0 ∧ hourlyRate l = 0)) ∧
      totalProfit [] = 0 ∧ totalSessions [] = 0 ∧ totalHours [] = 0 ∧ hourlyRate [] = 0 := by
  refine ⟨?_, rfl, rfl, rfl, ?_⟩
  · by_cases h : 0 < totalHours l
    · exact Or.inl ⟨h, by simp [hourlyRate, h]⟩
    · have h0 : totalHours l = 0 := le_antisymm (not_lt.mp h) (totalHours_nonneg l)
      exact Or.inr ⟨h0, by simp [hourlyRate, h0]⟩
  · norm_num [hourlyRate, totalHours, totalProfit]

/-- C3 counterexample: the claim says a selector outside the recognised set
behaves exactly like `all`.  In the source the `switch` has no `default`,
so the cutoff stays at `now`: with one session dated 2024-03-10 and the
clock at 2024-03-12 10:00, the unknown selector `bogus` filters the
session out while `all` keeps it. -/
theorem C3_unknown_selector_cx :
    filterSessionsByTimeRange [⟨1710028800000, 60, 0, 0, 0, none⟩] "bogus"
        ⟨2024, 2, 12, 36000000⟩ ≠
      filterSessionsByTimeRange [⟨1710028800000, 60, 0, 0, 0, none⟩] "all"
        ⟨2024, 2, 12, 36000000⟩ := by
  decide

/-- C3 (amended): for every selector outside
{week, month, quarter, year, all} the filter never raises, but instead of
returning the full collection it returns exactly the sessions dated at or
after `now` (the cutoff is left at the current instant by the
`default`-less `switch`). -/
theorem C3_unknown_selector_amended (l : List PokerSession) (range : String)
    (now : JSDate)
    (h : ¬ range ∈ (["week", "month", "quarter", "year", "all"] : List String)) :
    filterSessionsByTimeRange l range now =
      l.filter fun s => decide (nowMs now ≤ s.session_date) := by
  simp only [List.mem_cons, List.not_mem_nil, or_false, not_or] at h
  obtain ⟨hw, hm, hq, hy, ha⟩ := h
  simp [filterSessionsByTimeRange, hw, hm, hq, hy, ha]

theorem C3_unknown_selector_amended_witness :
    ¬ "bogus" ∈ (["week", "month", "quarter", "year", "all"] : List String) ∧
      filterSessionsByTimeRange [⟨1710028800000, 60, 0, 0, 0, none⟩] "bogus"
          ⟨2024, 2, 12, 36000000⟩ =
        List.filter (fun s => decide (nowMs ⟨2024, 2, 12, 36000000⟩ ≤ s.session_date))
          [⟨1710028800000, 60, 0, 0, 0, none⟩] :=
  ⟨by decide, C3_unknown_selector_amended _ "bogus" _ (by decide)⟩

/-- C6: the claim (and spec P2) says `total_profit` is additive across any
partition of the collection.  The sources accumulate it with binary64
`reduce`, which is not associative: for backend profits 0.10, 0.20, 0.30
the whole-collection total is 0.6000000000000001 while the totals of the
parts [0.10] and [0.20, 0.30] sum to 0.1 + 0.5 ≠ that value.  This theorem
evaluates the code's arithmetic at the failing partition. -/
theorem C6_total_profit_not_partition_additive :
    (totalProfitFP [10, 20, 30]).toRat ≠
      (totalProfitFP [10]).toRat + (totalProfitFP [20, 30]).toRat := by
  have h1 : totalProfitFP [10, 20, 30] = ⟨5404319552844596, -53⟩ := by decide
  have h2 : totalProfitFP [10] = ⟨7205759403792794, -56⟩ := by decide
  have h3 : totalProfitFP [20, 30] = ⟨4503599627370496, -53⟩ := by decide
  rw [h1, h2, h3]
  norm_num [FloatVal.toRat, pow2z_eq, show ((53:ℤ)).toNat = 53 from rfl,
    show ((56:ℤ)).toNat = 56 from rfl]

/-- C9: the claim (and the spec's contract) says `now` is injected as an
input and the filter never reads a global clock.  In the source the
function signature is `(sessions, range)` and `now` comes from
`new Date()` inside the function body.  Modelling the clock reading as
the extra argument, two invocations with identical declared inputs
`(sessions, "week")` but clock instants 2024-03-12 and 2024-06-01 return
different subsets — the output is not a function of the declared inputs,
it depends on the global clock. -/
theorem C9_filter_reads_global_clock :
    filterSessionsByTimeRange [⟨1710028800000, 60, 0, 0, 0, none⟩] "week"
        ⟨2024, 2, 12, 0⟩ ≠
      filterSessionsByTimeRange [⟨1710028800000, 60, 0, 0, 0, none⟩] "week"
        ⟨2024, 5, 1, 0⟩ := by
  decide

/-- C7: for each recognised selector a session is kept iff its date lies at
or after the window start (the code's cutoff instant: `setDate(-7)`,
`setMonth(-1)`, `setMonth(-3)`, `setFullYear(-1)` respectively applied to
`now`), with no upper bound — future-dated sessions pass; `all` returns
the collection unchanged; and the `week` window start is exactly
`now - 7 days`. -/
theorem C7_filter_window_membership (l : List PokerSession) (now : JSDate)
    (s : PokerSession) :
    (s ∈ filterSessionsByTimeRange l "week" now ↔
        s ∈ l ∧ cutoffWeekMs now ≤ s.session_date)
  ∧ (s ∈ filterSessionsByTimeRange l "month" now ↔
        s ∈ l ∧ cutoffMonthMs now ≤ s.session_date)
  ∧ (s ∈ filterSessionsByTimeRange l "quarter" now ↔
        s ∈ l ∧ cutoffQuarterMs now ≤ s.session_date)
  ∧ (s ∈ filterSessionsByTimeRange l "year" now ↔
        s ∈ l ∧ cutoffYearMs now ≤ s.session_date)
  ∧ filterSessionsByTimeRange l "all" now = l
  ∧ cutoffWeekMs now = nowMs now - 7 * dayMs := by
  refine ⟨?_, ?_, ?_, ?_, filterSessions_all l now, cutoffWeekMs_eq now⟩ <;>
    simp [filterSessions_week, filterSessions_month, filterSessions_quarter,
      filterSessions_year, List.mem_filter]

/-- C8: for one reference instant, the count of sessions passing the filter
is non-decreasing along week, month, quarter, year, all, because the
successive window starts move (weakly) backwards in time for every civil
date `now` (month index in `0..11`; year and day-of-month unconstrained). -/
theorem C8_filter_count_monotone (l : List PokerSession) (now : JSDate)
    (h1 : 0 ≤ now.monthIdx) (h2 : now.monthIdx ≤ 11) :
    (filterSessionsByTimeRange l "week" now).length ≤
        (filterSessionsByTimeRange l "month" now).length
  ∧ (filterSessionsByTimeRange l "month" now).length ≤
        (filterSessionsByTimeRange l "quarter" now).length
  ∧ (filterSessionsByTimeRange l "quarter" now).length ≤
        (filterSessionsByTimeRange l "year" now).length
  ∧ (filterSessionsByTimeRange l "year" now).length ≤
        (filterSessionsByTimeRange l "all" now).length := by
  rw [filterSessions_week, filterSessions_month, filterSessions_quarter,
    filterSessions_year, filterSessions_all]
  exact ⟨length_filter_cutoff_mono l _ _ (cutoffMonth_le_cutoffWeek now h1 h2),
    length_filter_cutoff_mono l _ _ (cutoffQuarter_le_cutoffMonth now h1 h2),
    length_filter_cutoff_mono l _ _ (cutoffYear_le_cutoffQuarter now h1 h2),
    List.length_filter_le _ l⟩

theorem C8_filter_count_monotone_witness :
    (0 ≤ (⟨2024, 2, 12, 36000000⟩ : JSDate).monthIdx
      ∧ (⟨2024, 2, 12, 36000000⟩ : JSDate).monthIdx ≤ 11)
  ∧ ((filterSessionsByTimeRange [⟨1710028800000, 60, 0, 0, 0, none⟩] "week"
          ⟨2024, 2, 12, 36000000⟩).length ≤
        (filterSessionsByTimeRange [⟨1710028800000, 60, 0, 0, 0, none⟩] "month"
          ⟨2024, 2, 12, 36000000⟩).length
    ∧ (filterSessionsByTimeRange [⟨1710028800000, 60, 0, 0, 0, none⟩] "month"
          ⟨2024, 2, 12, 36000000⟩).length ≤
        (filterSessionsByTimeRange [⟨1710028800000, 60, 0, 0, 0, none⟩] "quarter"
          ⟨2024, 2, 12, 36000000⟩).length
    ∧ (filterSessionsByTimeRange [⟨1710028800000, 60, 0, 0, 0, none⟩] "quarter"
          ⟨2024, 2, 12, 36000000⟩).length ≤
        (filterSessionsByTimeRange [⟨1710028800000, 60, 0, 0, 0, none⟩] "year"
          ⟨2024, 2, 12, 36000000⟩).length
    ∧ (filterSessionsByTimeRange [⟨1710028800000, 60, 0, 0, 0, none⟩] "year"
          ⟨2024, 2, 12, 36000000⟩).length ≤
        (filterSessionsByTimeRange [⟨1710028800000, 60, 0, 0, 0, none⟩] "all"
          ⟨2024, 2, 12, 36000000⟩).length) :=
  ⟨⟨by decide, by decide⟩,
    C8_filter_count_monotone [⟨1710028800000, 60, 0, 0, 0, none⟩]
      ⟨2024, 2, 12, 36000000⟩ (by decide) (by decide)⟩

/-- On a non-empty collection, the chart's final running total is the sum
of the per-session profits. -/
theorem chartData_last_total (l : List PokerSession) (h : l ≠ []) :
    ((calculateChartData l).map Prod.snd).getLast? =
      some ((l.map calculateProfit).sum) := by
  have hne : l.isEmpty = false := by simpa [List.isEmpty_iff] using h
  have hs : sortedSessions l ≠ [] := by
    intro h0
    apply h
    have hlen := sortedSessions_length l
    rw [h0] at hlen
    exact List.length_eq_zero.mp hlen.symm
  rw [calculateChartData, hne]
  simp only [Bool.false_eq_true, if_false]
  rw [runningPoints_last 0 _ hs, zero_add]
  congr 1
  exact ((sortedSessions_perm l).map calculateProfit).sum_eq

/-- When every session carries the backend-computed profit field (equal to
the canonical formula), the stat-card total is the sum of the per-row
profits. -/
theorem totalProfit_eq_formula_sum (l : List PokerSession)
    (hWF : ∀ s ∈ l, s.profit = some (calculateProfit s)) :
    totalProfit l = (l.map calculateProfit).sum := by
  rw [totalProfit_eq_sum]
  congr 1
  apply List.map_congr_left
  intro s hs
  rw [hWF s hs]
  rfl

set_option maxRecDepth 100000 in
/-- C4 counterexample: the claim says the running total of the last chart
point equals the collection's `total_profit` as computed by the
aggregation.  Both are binary64 folds in the source, but over different
orders: the aggregation (`sessions.reduce` over `s.profit || 0`) runs in
input order, the chart's `runningTotal` in date-sorted order, and
binary64 addition is not associative.  For three sessions with amounts
giving profits 0.20, 0.30, 0.10 (so backend `profit` fields 0.20, 0.30,
0.10, parsed to the same doubles) and dates 2, 3, 1, the aggregation
gives exactly 0.6 while the chart's final running total is
0.6000000000000001. -/
theorem C4_cumulative_series_cx :
    (chartFinalTotalFP [⟨2, 0, 0, 20⟩, ⟨3, 0, 0, 30⟩, ⟨1, 0, 0, 10⟩]).toRat ≠
      (totalProfitFP [20, 30, 10]).toRat := by
  have ht : totalProfitFP [20, 30, 10] = ⟨5404319552844595, -53⟩ := by decide
  have hs : List.mergeSort [(⟨2, 0, 0, 20⟩ : FSession), ⟨3, 0, 0, 30⟩, ⟨1, 0, 0, 10⟩]
      fsessionLe = [⟨1, 0, 0, 10⟩, ⟨2, 0, 0, 20⟩, ⟨3, 0, 0, 30⟩] := by
    simp [List.mergeSort, fsessionLe]
  have hc : chartFinalTotalFP [⟨2, 0, 0, 20⟩, ⟨3, 0, 0, 30⟩, ⟨1, 0, 0, 10⟩] =
      ⟨5404319552844596, -53⟩ := by
    rw [chartFinalTotalFP, hs]
    decide
  rw [ht, hc]
  norm_num [FloatVal.toRat, pow2z_eq, show ((53:ℤ)).toNat = 53 from rfl]

/-- C4 (amended): the cumulative bankroll series has one point per input
session, is empty on the empty collection, its labels are in ascending
date order, and the date-sorted order is stable (per-date subsequences
equal the input's) — these hold of the code as-is; and in exact decimal
arithmetic, with each session's `profit` field carrying the backend's
canonical value `cash_out - (buy_in + rebuy)` (the backend computation is
not part of the frontend sources; spec-modelled), the last running total
equals the stat-card `totalProfit`.  In the code's binary64 arithmetic
that last equality can fail by one unit of precision, because the chart
accumulates in date-sorted order while the aggregation accumulates in
input order (see the counterexample above). -/
theorem C4_cumulative_series (l : List PokerSession)
    (hWF : ∀ s ∈ l, s.profit = some (calculateProfit s)) :
    (calculateChartData l).length = l.length
  ∧ calculateChartData [] = ([] : List (ℤ × ℚ))
  ∧ (l ≠ [] → ((calculateChartData l).map Prod.snd).getLast? = some (totalProfit l))
  ∧ ((calculateChartData l).map Prod.fst).Pairwise (· ≤ ·)
  ∧ (∀ t : ℤ, (sortedSessions l).filter (fun s => decide (s.session_date = t)) =
        l.filter (fun s => decide (s.session_date = t))) := by
  refine ⟨calculateChartData_length l, rfl, ?_, ?_, sortedSessions_filter_date l⟩
  · intro h
    rw [chartData_last_total l h, totalProfit_eq_formula_sum l hWF]
  · by_cases h : l.isEmpty
    · have : l = [] := List.isEmpty_iff.mp h
      subst this
      simp [calculateChartData]
    · have hne : l.isEmpty = false := Bool.not_eq_true _ ▸ by simpa using h
      rw [calculateChartData, hne]
      simp only [Bool.false_eq_true, if_false]
      rw [runningPoints_fst]
      rw [List.pairwise_map]
      have hsorted : (List.mergeSort l sessionLe).Pairwise (fun a b => sessionLe a b = true) :=
        List.sorted_mergeSort sessionLe_trans sessionLe_total l
      apply hsorted.imp
      intro a b hab
      simpa [sessionLe] using hab

theorem C4_cumulative_series_witness :
    (∀ s ∈ ([⟨1, 60, 10, 0, 15, some 5⟩, ⟨2, 30, 20, 5, 10, some (-15)⟩] :
        List PokerSession), s.profit = some (calculateProfit s))
  ∧ ((calculateChartData [⟨1, 60, 10, 0, 15, some 5⟩, ⟨2, 30, 20, 5, 10, some (-15)⟩]).length =
        ([⟨1, 60, 10, 0, 15, some 5⟩, ⟨2, 30, 20, 5, 10, some (-15)⟩] :
          List PokerSession).length
    ∧ calculateChartData [] = ([] : List (ℤ × ℚ))
    ∧ (([⟨1, 60, 10, 0, 15, some 5⟩, ⟨2, 30, 20, 5, 10, some (-15)⟩] :
          List PokerSession) ≠ [] →
        ((calculateChartData [⟨1, 60, 10, 0, 15, some 5⟩, ⟨2, 30, 20, 5, 10, some (-15)⟩]).map
            Prod.snd).getLast? =
          some (totalProfit [⟨1, 60, 10, 0, 15, some 5⟩, ⟨2, 30, 20, 5, 10, some (-15)⟩]))
    ∧ ((calculateChartData [⟨1, 60, 10, 0, 15, some 5⟩, ⟨2, 30, 20, 5, 10, some (-15)⟩]).map
          Prod.fst).Pairwise (· ≤ ·)
    ∧ (∀ t : ℤ,
        (sortedSessions [⟨1, 60, 10, 0, 15, some 5⟩, ⟨2, 30, 20, 5, 10, some (-15)⟩]).filter
            (fun s => decide (s.session_date = t)) =
          ([⟨1, 60, 10, 0, 15, some 5⟩, ⟨2, 30, 20, 5, 10, some (-15)⟩] :
            List PokerSession).filter (fun s => decide (s.session_date = t)))) :=
  ⟨by
      intro s hs
      fin_cases hs <;> norm_num [calculateProfit],
    C4_cumulative_series _ (by
      intro s hs
      fin_cases hs <;> norm_num [calculateProfit])⟩

set_option maxRecDepth 100000 in
/-- C5 counterexample: the claim says the per-row table profits sum to the
final chart running total for every collection.  Both sites do use the
same per-session binary64 formula, but the table/stat sums run in input
order while the chart accumulates in date-sorted order, and binary64
addition is not associative: for three sessions with profits 0.20, 0.30,
0.10 (dates 2, 3, 1), the row-order sum is 0.6 while the date-sorted
running total is 0.6000000000000001. -/
theorem C5_profit_sites_binary64_cx :
    (tableProfitSumFP [⟨2, 0, 0, 20⟩, ⟨3, 0, 0, 30⟩, ⟨1, 0, 0, 10⟩]).toRat ≠
      (chartFinalTotalFP [⟨2, 0, 0, 20⟩, ⟨3, 0, 0, 30⟩, ⟨1, 0, 0, 10⟩]).toRat := by
  have ht : tableProfitSumFP [⟨2, 0, 0, 20⟩, ⟨3, 0, 0, 30⟩, ⟨1, 0, 0, 10⟩] =
      ⟨5404319552844595, -53⟩ := by decide
  have hs : List.mergeSort [(⟨2, 0, 0, 20⟩ : FSession), ⟨3, 0, 0, 30⟩, ⟨1, 0, 0, 10⟩]
      fsessionLe = [⟨1, 0, 0, 10⟩, ⟨2, 0, 0, 20⟩, ⟨3, 0, 0, 30⟩] := by
    simp [List.mergeSort, fsessionLe]
  have hc : chartFinalTotalFP [⟨2, 0, 0, 20⟩, ⟨3, 0, 0, 30⟩, ⟨1, 0, 0, 10⟩] =
      ⟨5404319552844596, -53⟩ := by
    rw [chartFinalTotalFP, hs]
    decide
  rw [ht, hc]
  norm_num [FloatVal.toRat, pow2z_eq, show ((53:ℤ)).toNat = 53 from rfl]

/-- C5 (amended): every site derives the per-session profit from the same
canonical formula, and in exact decimal arithmetic the three aggregates
coincide: when each session's backend `profit` field equals
`cash_out - (buy_in + rebuy)` (spec-modelled backend), the stat-card total
equals the sum of the per-row table profits, and on a non-empty
collection the chart's final running total equals that same value; in the
code's binary64 arithmetic the sums run in different orders and can
differ in the last unit of precision (see the counterexample). -/
theorem C5_profit_sites_agree_exact (l : List PokerSession)
    (hWF : ∀ s ∈ l, s.profit = some (calculateProfit s)) :
    totalProfit l = (l.map calculateProfit).sum
  ∧ (l ≠ [] →
      ((calculateChartData l).map Prod.snd).getLast? = some (totalProfit l)) := by
  refine ⟨totalProfit_eq_formula_sum l hWF, ?_⟩
  intro h
  rw [chartData_last_total l h, totalProfit_eq_formula_sum l hWF]

theorem C5_profit_sites_agree_exact_witness :
    (∀ s ∈ ([⟨5, 90, 100, 50, 300, some 150⟩] : List PokerSession),
        s.profit = some (calculateProfit s))
  ∧ (totalProfit [⟨5, 90, 100, 50, 300, some 150⟩] =
        (([⟨5, 90, 100, 50, 300, some 150⟩] : List PokerSession).map calculateProfit).sum
    ∧ (([⟨5, 90, 100, 50, 300, some 150⟩] : List PokerSession) ≠ [] →
        ((calculateChartData [⟨5, 90, 100, 50, 300, some 150⟩]).map Prod.snd).getLast? =
          some (totalProfit [⟨5, 90, 100, 50, 300, some 150⟩]))) :=
  ⟨by
      intro s hs
      fin_cases hs
      norm_num [calculateProfit],
    C5_profit_sites_agree_exact _ (by
      intro s hs
      fin_cases hs
      norm_num [calculateProfit])⟩

/-- The rendered Charts page (Charts.svelte together with the embedded
BankrollChart component): four stat cards computed from the full
`sessions` prop, and the chart series computed from the time-filtered
sessions. -/
structure ChartsPageView where
  totalProfitCard : ℚ
  totalSessionsCard : ℕ
  totalHoursCard : ℚ
  hourlyRateCard : ℚ
  chartSeries : List (ℤ × ℚ)
deriving Repr

/-- Charts.svelte: the reactive stat declarations read `sessions`; only the
chart series goes through `filterSessionsByTimeRange` with the selected
`timeRange` (BankrollChart.svelte line 14). -/
def renderChartsPage (sessions : List PokerSession) (timeRange : String)
    (now : JSDate) : ChartsPageView :=
  ⟨totalProfit sessions, totalSessions sessions, totalHours sessions,
    hourlyRate sessions,
    calculateChartData (filterSessionsByTimeRange sessions timeRange now)⟩

/-- C10: selecting a chart time range changes none of the four stat cards
(they are computed from the full collection for any selector), while the
chart series is recomputed from the filtered collection — and genuinely
changes: at the concrete instant 2024-06-01 a lone session dated
2024-03-10 yields an empty `week` series but a one-point `all` series. -/
theorem C10_stat_cards_unaffected_by_range (sessions : List PokerSession)
    (r r2 : String) (now : JSDate) :
    ((renderChartsPage sessions r now).totalProfitCard =
        (renderChartsPage sessions r2 now).totalProfitCard
    ∧ (renderChartsPage sessions r now).totalSessionsCard =
        (renderChartsPage sessions r2 now).totalSessionsCard
    ∧ (renderChartsPage sessions r now).totalHoursCard =
        (renderChartsPage sessions r2 now).totalHoursCard
    ∧ (renderChartsPage sessions r now).hourlyRateCard =
        (renderChartsPage sessions r2 now).hourlyRateCard)
  ∧ (renderChartsPage sessions r now).chartSeries =
      calculateChartData (filterSessionsByTimeRange sessions r now)
  ∧ (renderChartsPage [⟨1710028800000, 60, 0, 0, 0, some 0⟩] "week"
        ⟨2024, 5, 1, 0⟩).chartSeries ≠
      (renderChartsPage [⟨1710028800000, 60, 0, 0, 0, some 0⟩] "all"
        ⟨2024, 5, 1, 0⟩).chartSeries := by
  refine ⟨⟨rfl, rfl, rfl, rfl⟩, rfl, ?_⟩
  have hw : filterSessionsByTimeRange [⟨1710028800000, 60, 0, 0, 0, some 0⟩]
      "week" ⟨2024, 5, 1, 0⟩ = [] := by decide
  simp only [renderChartsPage, hw, filterSessions_all]
  intro heq
  have hlen := congrArg List.length heq
  simp only [calculateChartData_length] at hlen
  simp at hlen
